import Mathlib

/-!
# Verification of the Fintegral portfolio-valuation / PLA repository

Shallow embedding of the repository's data model and operations:

* `core/portfolio.py`, `core/deal.py` — `Deal`, `Portfolio`, `Portfolio.price`;
* `market_data/market_data_object.py` — `MarketDataObject`,
  `add_asset_data`, `asset_lookup`;
* `market_data/asset_data.py` — the asset-datum variants;
* `market_data/scenario_generator.py` — `generate_log_normal_shocks`;
* `statistics/pla_stats.py` — `pla_stats` over the external scipy
  statistics utility, which the spec (§1, §6) declares an opaque external
  interface and which is modelled here at that interface;
* `instruments/equity/options.py` (flat revision) — the attribute store
  written by `Option.__init__` and the body of `Option.__eq__`;
* `instruments/equity/options/options.py` (package revision) —
  construction-time engine handling, `validate_engine`, and the
  `pricing_engine` property setter.

Python numbers are modelled as `ℚ` where the code only moves them around
and as `ℝ` where genuine real arithmetic (`exp`) happens; Python `raise`
is modelled with `Except` over the exception classes the code actually
raises.  Python dictionaries are modelled as insertion-ordered
association lists with unique keys, matching `dict` semantics
(assignment to an existing key replaces in place, a new key appends).
-/

/-- The Python exception classes raised by code paths relevant to the
claims.  The spec's §7 taxonomy realises NotFound as `KeyError`,
InvalidArgument as `TypeError`/`ValueError`, and Configuration as
`NotImplementedError`; no code path raises anything for the spec's
InsufficientData taxon. -/
inductive PyException where
  | keyError
  | typeError
  | valueError
  | notImplementedError
  deriving Repr, DecidableEq

/-- Lookup in a Python `dict` modelled as an association list:
first (and, under the unique-key invariant, only) binding wins. -/
def dictLookup {α : Type} : List (String × α) → String → Option α
  | [], _ => none
  | (k', v) :: rest, k => if k' = k then some v else dictLookup rest k

/-- Assignment `d[k] = v` on a Python `dict`: replace the binding in
place when the key exists, append otherwise. -/
def dictInsert {α : Type} : List (String × α) → String → α → List (String × α)
  | [], k, v => [(k, v)]
  | (k', v') :: rest, k, v =>
      if k' = k then (k, v) :: rest else (k', v') :: dictInsert rest k v

/-! ## `core/deal.py` and `core/portfolio.py`

An `Instrument` is, per `instruments/instrument.py`, anything exposing
`price(market_data) -> real`; a deal's instrument is therefore embedded
as its pricing function over an abstract market-data type `MD`. -/

/-- `Deal`: an instrument, a quantity and trade metadata
(`core/deal.py`). -/
structure Deal (MD : Type) where
  instrument : MD → ℝ
  quantity : ℝ
  counterparty : String := "Unknown"
  creation_time : ℕ := 0

/-- `Portfolio`: the insertion-ordered deals.  The source keeps them in a
`dict` keyed by a monotonically increasing counter starting at 0, so the
store is exactly an insertion-ordered list; `deal_counter` is its
length. -/
structure Portfolio (MD : Type) where
  deals : List (Deal MD)

/-- `Portfolio.add_deal`: store the deal under the next counter value,
i.e. append it. -/
def Portfolio.add_deal {MD : Type} (p : Portfolio MD) (d : Deal MD) :
    Portfolio MD :=
  ⟨p.deals ++ [d]⟩

/-- `Portfolio.price`: iterate the deals in insertion order, accumulate
`instrument.price(market_data) * quantity` into `total_pv` starting from
`0`, return the total. -/
def Portfolio.price {MD : Type} (p : Portfolio MD) (md : MD) : ℝ :=
  p.deals.foldl (fun total_pv d => total_pv + d.instrument md * d.quantity) 0

/-- The running-total loop of `Portfolio.price` computes an initial value
plus the sum of the per-deal position values. -/
lemma portfolio_foldl_eq_sum {MD : Type} (md : MD) :
    ∀ (l : List (Deal MD)) (t : ℝ),
      l.foldl (fun total_pv d => total_pv + d.instrument md * d.quantity) t =
        t + (l.map fun d => d.instrument md * d.quantity).sum := by
  intro l
  induction l with
  | nil => intro t; simp
  | cons d rest ih =>
      intro t
      simp only [List.foldl_cons, List.map_cons, List.sum_cons, ih, add_assoc]

/-- C1: `Portfolio.price(M)` returns the sum over all deals of
`instrument.price(M) * quantity`; the total is invariant under
permutation of the deals; the empty portfolio prices to `0`. -/
theorem Portfolio.price_spec {MD : Type} (p : Portfolio MD) (md : MD) :
    p.price md = (p.deals.map fun d => d.instrument md * d.quantity).sum ∧
    (∀ q : Portfolio MD, p.deals.Perm q.deals → p.price md = q.price md) ∧
    (Portfolio.mk ([] : List (Deal MD))).price md = 0 := by
  refine ⟨?_, ?_, ?_⟩
  · simpa using portfolio_foldl_eq_sum md p.deals 0
  · intro q hperm
    have hp := portfolio_foldl_eq_sum md p.deals 0
    have hq := portfolio_foldl_eq_sum md q.deals 0
    have hsum :
        (p.deals.map fun d => d.instrument md * d.quantity).sum =
          (q.deals.map fun d => d.instrument md * d.quantity).sum :=
      (hperm.map _).sum_eq
    simp [Portfolio.price, hp, hq, hsum]
  · simp [Portfolio.price]

/-- A concrete deal used to witness C1. -/
def dealA : Deal Unit :=
  { instrument := fun _ => 2, quantity := 3 }

/-- A second concrete deal used to witness C1. -/
def dealB : Deal Unit :=
  { instrument := fun _ => 5, quantity := 7 }

/-- C1 witness: two concrete two-deal portfolios holding the same deals in
swapped order price identically. -/
theorem Portfolio.price_spec_witness :
    (Portfolio.mk [dealA, dealB]).price () =
      (Portfolio.mk [dealB, dealA]).price () :=
  (Portfolio.price_spec (Portfolio.mk [dealA, dealB]) ()).2.1
    (Portfolio.mk [dealB, dealA]) (List.Perm.swap dealB dealA [])

/-! ## `market_data/asset_data.py` and `market_data/market_data_object.py` -/

/-- `AssetMarketData` and its two concrete variants
(`market_data/asset_data.py`): an equity datum carries spot and
volatility, an interest-rate datum carries a rate; both are keyed by
`asset_name`. -/
inductive AssetMarketData where
  | equity (asset_name : String) (spot volatility : ℚ)
  | interestRate (asset_name : String) (interest_rate : ℚ)
  deriving Repr, DecidableEq

/-- The `asset_name` attribute set by `AssetMarketData.__init__`. -/
def AssetMarketData.asset_name : AssetMarketData → String
  | .equity n _ _ => n
  | .interestRate n _ => n

/-- Python truthiness of an `AssetMarketData` instance: the class defines
neither `__bool__` nor `__len__`, so every instance is truthy. -/
def AssetMarketData.pyTruthy (_ : AssetMarketData) : Bool := true

/-- Observable logging events emitted by `MarketDataObject`. -/
inductive LogEvent where
  | overwriteInfo (overwritten : AssetMarketData) (asset_name : String)
  | missingWarning (asset_name : String)
  deriving Repr, DecidableEq

/-- `MarketDataObject`: an optional scenario date and the
`asset_data_store` dictionary keyed by asset name. -/
structure MarketDataObject where
  scenario_date : Option ℕ := none
  asset_data_store : List (String × AssetMarketData) := []

/-- One iteration of the loop in `MarketDataObject.add_asset_data`:
if the name is already stored, emit the `logger.info` overwrite event
recording the old datum, then assign `store[name] = asset`. -/
def MarketDataObject.addOne (mdo : MarketDataObject) (a : AssetMarketData) :
    MarketDataObject × List LogEvent :=
  let events : List LogEvent :=
    match dictLookup mdo.asset_data_store a.asset_name with
    | some overwritten_data => [.overwriteInfo overwritten_data a.asset_name]
    | none => []
  ({ mdo with
      asset_data_store := dictInsert mdo.asset_data_store a.asset_name a },
   events)

/-- `MarketDataObject.add_asset_data`: a single datum is normalised to a
one-element sequence by the `Iterable` check, so the argument is taken
here already as a list; each element is inserted in turn.  The function
is total: no insert raises. -/
def MarketDataObject.add_asset_data (mdo : MarketDataObject)
    (asset_data : List AssetMarketData) : MarketDataObject × List LogEvent :=
  asset_data.foldl
    (fun acc a => ((acc.1.addOne a).1, acc.2 ++ (acc.1.addOne a).2))
    (mdo, [])

/-- Keys produced by `dictInsert` come from the inserted key or the old
dictionary. -/
lemma dictInsert_keys_subset {α : Type} (l : List (String × α)) (k : String)
    (v : α) :
    ∀ x ∈ (dictInsert l k v).map Prod.fst, x = k ∨ x ∈ l.map Prod.fst := by
  induction l with
  | nil => intro x hx; simp [dictInsert] at hx; exact Or.inl hx
  | cons p rest ih =>
      intro x hx
      by_cases hk : p.1 = k
      · simp [dictInsert, hk] at hx
        rcases hx with hx | hx
        · exact Or.inl hx
        · exact Or.inr (by simp [hx])
      · simp [dictInsert, hk] at hx
        rcases hx with hx | hx
        · exact Or.inr (by simp [hx])
        · rcases ih x (by simpa using hx) with h | h
          · exact Or.inl h
          · exact Or.inr (by simp [h])

/-- `dictInsert` preserves uniqueness of keys. -/
lemma dictInsert_keys_nodup {α : Type} (l : List (String × α)) (k : String)
    (v : α) (h : (l.map Prod.fst).Nodup) :
    ((dictInsert l k v).map Prod.fst).Nodup := by
  induction l with
  | nil => simp [dictInsert]
  | cons p rest ih =>
      obtain ⟨k', v'⟩ := p
      simp only [List.map_cons, List.nodup_cons] at h
      by_cases hk : k' = k
      · subst hk
        have hstep : dictInsert ((k', v') :: rest) k' v = (k', v) :: rest := by
          simp [dictInsert]
        rw [hstep]
        simp only [List.map_cons, List.nodup_cons]
        exact h
      · simp only [dictInsert, if_neg hk, List.map_cons, List.nodup_cons]
        refine ⟨?_, ih h.2⟩
        intro hmem
        rcases dictInsert_keys_subset rest k v k' hmem with heq | hmem'
        · exact hk heq
        · exact h.1 hmem'

/-- Looking up the key just assigned returns the new value. -/
lemma dictLookup_dictInsert_self {α : Type} (l : List (String × α))
    (k : String) (v : α) : dictLookup (dictInsert l k v) k = some v := by
  induction l with
  | nil => simp [dictInsert, dictLookup]
  | cons p rest ih =>
      by_cases hk : p.1 = k
      · simp [dictInsert, hk, dictLookup]
      · simp [dictInsert, hk, dictLookup, ih]


/-- The market-data store reached by the `add_asset_data` fold from any
starting store with unique keys has unique keys, whatever the event
accumulator holds. -/
lemma add_asset_data_fold_store_nodup :
    ∀ (assets : List AssetMarketData) (mdo : MarketDataObject)
      (evs : List LogEvent),
      (mdo.asset_data_store.map Prod.fst).Nodup →
      (((assets.foldl
          (fun acc a => ((acc.1.addOne a).1, acc.2 ++ (acc.1.addOne a).2))
          (mdo, evs)).1.asset_data_store.map Prod.fst)).Nodup := by
  intro assets
  induction assets with
  | nil => intro mdo evs h; exact h
  | cons a rest ih =>
      intro mdo evs h
      simp only [List.foldl_cons]
      exact ih _ _ (dictInsert_keys_nodup _ _ _ h)

/-- C9: inserting data never raises (the operation is total and yields a
store plus events); key uniqueness of the store is preserved by any
`add_asset_data` call, so each asset name maps to at most one datum; and
inserting a datum whose name is already present stores the new datum
under that name and surfaces the overwrite as an observable
`logger.info` event recording the old datum. -/
theorem MarketDataObject.add_asset_data_spec :
    (∀ (mdo : MarketDataObject) (assets : List AssetMarketData),
      (mdo.asset_data_store.map Prod.fst).Nodup →
      ((mdo.add_asset_data assets).1.asset_data_store.map Prod.fst).Nodup) ∧
    (∀ (mdo : MarketDataObject) (a old : AssetMarketData),
      dictLookup mdo.asset_data_store a.asset_name = some old →
      dictLookup (mdo.add_asset_data [a]).1.asset_data_store a.asset_name =
          some a ∧
      (mdo.add_asset_data [a]).2 =
          [LogEvent.overwriteInfo old a.asset_name]) := by
  constructor
  · intro mdo assets h
    exact add_asset_data_fold_store_nodup assets mdo [] h
  · intro mdo a old hold
    constructor
    · simp [MarketDataObject.add_asset_data, MarketDataObject.addOne,
        dictLookup_dictInsert_self]
    · simp [MarketDataObject.add_asset_data, MarketDataObject.addOne, hold]

/-- A base registry holding an equity datum for `example_stock`, as in the
module's own example. -/
def exampleMdo : MarketDataObject :=
  { asset_data_store :=
      [("example_stock", .equity "example_stock" 100 (1 / 10))] }

/-- A replacement datum for `example_stock` with a different spot. -/
def exampleReplacement : AssetMarketData := .equity "example_stock" 120 (1 / 5)

/-- C9 witness: re-adding `example_stock` to a concrete registry keeps the
keys unique, stores the new datum, and logs the overwritten one. -/
theorem MarketDataObject.add_asset_data_spec_witness :
    ((exampleMdo.add_asset_data
        [exampleReplacement]).1.asset_data_store.map Prod.fst).Nodup ∧
    dictLookup (exampleMdo.add_asset_data
        [exampleReplacement]).1.asset_data_store "example_stock" =
      some exampleReplacement ∧
    (exampleMdo.add_asset_data [exampleReplacement]).2 =
      [LogEvent.overwriteInfo (.equity "example_stock" 100 (1 / 10))
        "example_stock"] :=
  ⟨MarketDataObject.add_asset_data_spec.1 exampleMdo [exampleReplacement]
      (by decide),
   (MarketDataObject.add_asset_data_spec.2 exampleMdo exampleReplacement
      (.equity "example_stock" 100 (1 / 10)) rfl).1,
   (MarketDataObject.add_asset_data_spec.2 exampleMdo exampleReplacement
      (.equity "example_stock" 100 (1 / 10)) rfl).2⟩

/-- `MarketDataObject.asset_lookup`: the body first evaluates
`self.asset_data_store[asset_name]`, which raises `KeyError` when the
name is absent — before the `error_if_missing` flag is ever consulted.
The subsequent `if not asset_data` branch (raise with a message when
`error_if_missing`, else `logger.warning` and fall through to the
return) can only fire for a stored falsy datum, and every
`AssetMarketData` instance is truthy. -/
def MarketDataObject.asset_lookup (mdo : MarketDataObject)
    (asset_name : String) (error_if_missing : Bool := true) :
    Except PyException AssetMarketData :=
  match dictLookup mdo.asset_data_store asset_name with
  | none => .error .keyError
  | some asset_data =>
      if asset_data.pyTruthy = false then
        if error_if_missing then .error .keyError
        else .ok asset_data
      else .ok asset_data

/-- C4: at the failing input — a registry without the requested name and
`error_if_missing := false` — `asset_lookup` raises `KeyError` from the
dictionary subscript instead of warning and returning an absent result;
the flag makes no difference.  (On a present name the datum is returned,
as the claim says.) -/
theorem MarketDataObject.asset_lookup_missing_raises :
    ({} : MarketDataObject).asset_lookup "example_stock" false =
        .error .keyError ∧
    ({} : MarketDataObject).asset_lookup "example_stock" true =
        .error .keyError ∧
    exampleMdo.asset_lookup "example_stock" false =
        .ok (.equity "example_stock" 100 (1 / 10)) := by
  refine ⟨rfl, rfl, ?_⟩
  simp [MarketDataObject.asset_lookup, exampleMdo, dictLookup,
    AssetMarketData.pyTruthy]

/-! ## `market_data/scenario_generator.py` -/

/-- `generate_log_normal_shocks(vol, num_shocks)`: after the `vol < 0`
guard (which raises `TypeError` — the spec's InvalidArgument), draws
`num_shocks` independent standard-normal samples — supplied here by the
sampling oracle `rand_norm`, indexed by position in the drawn vector —
and returns `exp(vol * sample)` elementwise. -/
noncomputable def generate_log_normal_shocks (vol : ℚ) (num_shocks : ℕ)
    (rand_norm : ℕ → ℝ) : Except PyException (List ℝ) :=
  if vol < 0 then .error .typeError
  else
    .ok (((List.range num_shocks).map rand_norm).map
      fun z => Real.exp ((vol : ℝ) * z))

/-- C7: for every `vol < 0` and every `num_shocks`, the generator fails
with the spec's InvalidArgument error, realised in the code as a Python
`TypeError`, before any sampling happens. -/
theorem generate_log_normal_shocks_neg_vol (vol : ℚ) (num_shocks : ℕ)
    (rand_norm : ℕ → ℝ) (h : vol < 0) :
    generate_log_normal_shocks vol num_shocks rand_norm =
      .error .typeError := by
  rw [generate_log_normal_shocks, if_pos h]

/-- C7 witness: the generator rejects `vol = -1/10` whatever samples the
oracle would supply. -/
theorem generate_log_normal_shocks_neg_vol_witness :
    (-1 / 10 : ℚ) < 0 ∧
    generate_log_normal_shocks (-1 / 10) 5 (fun _ => 0) =
      .error .typeError :=
  ⟨by norm_num,
   generate_log_normal_shocks_neg_vol (-1 / 10) 5 (fun _ => 0) (by norm_num)⟩

/-- C8: with `vol = 0` the generator returns, for any `num_shocks = n ≥ 1`
and any drawn samples, exactly `n` elements each equal to `1.0`, since
`exp(0 * z) = 1`. -/
theorem generate_log_normal_shocks_zero_vol (num_shocks : ℕ)
    (rand_norm : ℕ → ℝ) (h : 1 ≤ num_shocks) :
    generate_log_normal_shocks 0 num_shocks rand_norm =
      .ok (List.replicate num_shocks 1) := by
  have hfun : (fun z => Real.exp (((0 : ℚ) : ℝ) * z)) ∘ rand_norm =
      fun _ : ℕ => (1 : ℝ) := by
    funext k
    simp [Real.exp_zero]
  rw [generate_log_normal_shocks, if_neg (lt_irrefl 0), List.map_map, hfun,
    List.map_const', List.length_range]

/-- C8 witness: one zero-volatility shock drawn from a nonzero sample is
exactly `[1.0]`. -/
theorem generate_log_normal_shocks_zero_vol_witness :
    1 ≤ 1 ∧
    generate_log_normal_shocks 0 1 (fun _ => 37) =
      .ok (List.replicate 1 1) :=
  ⟨by decide, generate_log_normal_shocks_zero_vol 1 (fun _ => 37) (by decide)⟩

/-- C10: for every `vol ≥ 0` and `num_shocks = n ≥ 1` the generator
succeeds with a vector of exactly `n` elements, each strictly positive,
being the exponential of a real number. -/
theorem generate_log_normal_shocks_pos (vol : ℚ) (num_shocks : ℕ)
    (rand_norm : ℕ → ℝ) (hvol : 0 ≤ vol) (hn : 1 ≤ num_shocks) :
    ∃ shocks : List ℝ,
      generate_log_normal_shocks vol num_shocks rand_norm = .ok shocks ∧
      shocks.length = num_shocks ∧ ∀ x ∈ shocks, 0 < x := by
  refine ⟨((List.range num_shocks).map rand_norm).map
      (fun z => Real.exp ((vol : ℝ) * z)), ?_, ?_, ?_⟩
  · rw [generate_log_normal_shocks, if_neg (not_lt.mpr hvol)]
  · simp
  · intro x hx
    simp only [List.mem_map] at hx
    obtain ⟨z, -, rfl⟩ := hx
    exact Real.exp_pos _

/-- C10 witness: at `vol = 1`, `n = 2` the generator yields two strictly
positive shocks. -/
theorem generate_log_normal_shocks_pos_witness :
    ∃ shocks : List ℝ,
      generate_log_normal_shocks 1 2 (fun _ => 0) = .ok shocks ∧
      shocks.length = 2 ∧ ∀ x ∈ shocks, 0 < x :=
  generate_log_normal_shocks_pos 1 2 (fun _ => 0) (by norm_num) (by decide)

/-! ## `statistics/pla_stats.py` and the external statistics utility

The spec (§1, §6) declares the statistics utility an external
collaborator specified only at its interface: two-sample KS test and
Spearman rank correlation, each returning (statistic, p-value).  The
two scipy primitives the code calls are therefore modelled at that
interface: their domain behaviour (empty-data rejection,
unequal-length rejection, constant-input NaN) follows the utility's
own documented contract, while the numeric statistic and p-value are
abstracted as function parameters. -/

/-- A Python float as observed at the statistics interface: a real
value or `nan`. -/
inductive PyFloat where
  | val (x : ℝ)
  | nan

/-- The `PlaResult` named tuple returned by `pla_stats`. -/
structure PlaResult where
  ks_value : PyFloat
  ks_pvalue : PyFloat
  spearman_value : PyFloat
  spearman_pvalue : PyFloat

/-- Whether every element of the vector equals its first element (the
constant-input test the Spearman primitive performs; vacuously true of
a one-element vector). -/
def isConstantList : List ℚ → Bool
  | [] => true
  | x :: xs => xs.all fun y => y == x

/-- The external two-sample Kolmogorov-Smirnov primitive
(`scipy.stats.ks_2samp`): data must not be empty — either sample being
empty raises `ValueError` — and otherwise a statistic and p-value are
returned, their numeric values abstracted by `stat` and `pval`. -/
def scipy_ks_2samp (stat pval : List ℚ → List ℚ → ℝ) (xs ys : List ℚ) :
    Except PyException (PyFloat × PyFloat) :=
  if xs = [] ∨ ys = [] then .error .valueError
  else .ok (.val (stat xs ys), .val (pval xs ys))

/-- The external Spearman rank-correlation primitive
(`scipy.stats.spearmanr`): stacking two one-dimensional samples of
unequal length raises `ValueError`; a constant input makes the rank
correlation undefined and the primitive returns `(nan, nan)`;
otherwise a statistic and p-value are returned, their numeric values
abstracted by `stat` and `pval`. -/
def scipy_spearmanr (stat pval : List ℚ → List ℚ → ℝ) (xs ys : List ℚ) :
    Except PyException (PyFloat × PyFloat) :=
  if xs.length ≠ ys.length then .error .valueError
  else if isConstantList xs = true ∨ isConstantList ys = true then
    .ok (.nan, .nan)
  else .ok (.val (stat xs ys), .val (pval xs ys))

/-- `pla_stats(fo_pnl, risk_pnl)`: runs the KS test, then the Spearman
correlation, and packages the four numbers into a `PlaResult` — with no
validation of its own; the only failures are those the external
primitives raise. -/
def pla_stats (ksStat ksPval spStat spPval : List ℚ → List ℚ → ℝ)
    (fo_pnl risk_pnl : List ℚ) : Except PyException PlaResult := do
  let ks_results ← scipy_ks_2samp ksStat ksPval fo_pnl risk_pnl
  let spearcorr_results ← scipy_spearmanr spStat spPval fo_pnl risk_pnl
  return { ks_value := ks_results.1, ks_pvalue := ks_results.2,
           spearman_value := spearcorr_results.1,
           spearman_pvalue := spearcorr_results.2 }

/-- Placeholder numerics for instantiating the abstracted statistic and
p-value functions at concrete inputs. -/
def zeroStatFn : List ℚ → List ℚ → ℝ := fun _ _ => 0

/-- C5 counterexample: on `fo_pnl = [1,1,1]` (a constant vector of
length 3) and `risk_pnl = [1,2,3]`, `pla_stats` does not fail at all —
it returns a result whose Spearman correlation is NaN — refuting the
claim that degenerate inputs fail with an InsufficientData error. -/
theorem pla_stats_constant_no_error :
    ∃ r : PlaResult,
      pla_stats zeroStatFn zeroStatFn zeroStatFn zeroStatFn
          [1, 1, 1] [1, 2, 3] = .ok r ∧
      r.spearman_value = PyFloat.nan ∧ r.spearman_pvalue = PyFloat.nan := by
  refine ⟨⟨.val (zeroStatFn [1, 1, 1] [1, 2, 3]),
      .val (zeroStatFn [1, 1, 1] [1, 2, 3]), .nan, .nan⟩, ?_, rfl, rfl⟩
  rfl

/-- C5 (amended): `pla_stats` performs no degenerate-input validation.
For equal-length inputs with `fo_pnl` nonempty and either vector
constant (which covers length-1 vectors), it returns normally with an
undefined (NaN) Spearman correlation and p-value; an empty vector makes
it fail only through the KS primitive's empty-data `ValueError` — the
spec's InvalidArgument, not an InsufficientData error. -/
theorem pla_stats_degenerate_spec
    (ksStat ksPval spStat spPval : List ℚ → List ℚ → ℝ)
    (fo_pnl risk_pnl : List ℚ) :
    (fo_pnl ≠ [] → fo_pnl.length = risk_pnl.length →
      (isConstantList fo_pnl = true ∨ isConstantList risk_pnl = true) →
      ∃ r : PlaResult,
        pla_stats ksStat ksPval spStat spPval fo_pnl risk_pnl = .ok r ∧
        r.spearman_value = PyFloat.nan ∧ r.spearman_pvalue = PyFloat.nan) ∧
    ((fo_pnl = [] ∨ risk_pnl = []) →
      pla_stats ksStat ksPval spStat spPval fo_pnl risk_pnl =
        .error .valueError) := by
  constructor
  · intro h1 h2 h3
    have hr : risk_pnl ≠ [] := by
      intro hnil
      apply h1
      rw [← List.length_eq_zero, h2, hnil, List.length_nil]
    have hks : scipy_ks_2samp ksStat ksPval fo_pnl risk_pnl =
        .ok (.val (ksStat fo_pnl risk_pnl), .val (ksPval fo_pnl risk_pnl)) := by
      rw [scipy_ks_2samp, if_neg]
      rintro (h | h)
      · exact h1 h
      · exact hr h
    have hsp : scipy_spearmanr spStat spPval fo_pnl risk_pnl =
        .ok (.nan, .nan) := by
      rw [scipy_spearmanr, if_neg (by simpa using h2), if_pos h3]
    refine ⟨⟨.val (ksStat fo_pnl risk_pnl), .val (ksPval fo_pnl risk_pnl),
        .nan, .nan⟩, ?_, rfl, rfl⟩
    simp only [pla_stats, hks, hsp]
    rfl
  · intro h
    have hks : scipy_ks_2samp ksStat ksPval fo_pnl risk_pnl =
        .error .valueError := by
      rw [scipy_ks_2samp, if_pos h]
    simp only [pla_stats, hks]
    rfl

/-- C5 witness for the amended claim: a constant length-2 vector paired
with a non-constant one yields a NaN Spearman correlation without any
error, and an empty vector fails with the KS primitive's `ValueError`. -/
theorem pla_stats_degenerate_spec_witness :
    (∃ r : PlaResult,
      pla_stats zeroStatFn zeroStatFn zeroStatFn zeroStatFn
          [2, 2] [3, 4] = .ok r ∧
      r.spearman_value = PyFloat.nan ∧ r.spearman_pvalue = PyFloat.nan) ∧
    pla_stats zeroStatFn zeroStatFn zeroStatFn zeroStatFn [] [1] =
      .error .valueError :=
  ⟨(pla_stats_degenerate_spec zeroStatFn zeroStatFn zeroStatFn zeroStatFn
      [2, 2] [3, 4]).1 (by simp) (by decide) (Or.inl (by decide)),
   (pla_stats_degenerate_spec zeroStatFn zeroStatFn zeroStatFn zeroStatFn
      [] [1]).2 (Or.inl rfl)⟩

/-- C6: on vectors of unequal length `pla_stats` fails with the spec's
InvalidArgument error, realised as a Python `ValueError` — from the KS
primitive's empty-data check when a vector is empty, otherwise from the
Spearman primitive's unequal-length rejection. -/
theorem pla_stats_length_mismatch
    (ksStat ksPval spStat spPval : List ℚ → List ℚ → ℝ)
    (fo_pnl risk_pnl : List ℚ) (h : fo_pnl.length ≠ risk_pnl.length) :
    pla_stats ksStat ksPval spStat spPval fo_pnl risk_pnl =
      .error .valueError := by
  by_cases hempty : fo_pnl = [] ∨ risk_pnl = []
  · have hks : scipy_ks_2samp ksStat ksPval fo_pnl risk_pnl =
        .error .valueError := by
      rw [scipy_ks_2samp, if_pos hempty]
    simp only [pla_stats, hks]
    rfl
  · push_neg at hempty
    have hks : scipy_ks_2samp ksStat ksPval fo_pnl risk_pnl =
        .ok (.val (ksStat fo_pnl risk_pnl), .val (ksPval fo_pnl risk_pnl)) := by
      rw [scipy_ks_2samp, if_neg]
      rintro (hnil | hnil)
      · exact hempty.1 hnil
      · exact hempty.2 hnil
    have hsp : scipy_spearmanr spStat spPval fo_pnl risk_pnl =
        .error .valueError := by
      rw [scipy_spearmanr, if_pos h]
    simp only [pla_stats, hks, hsp]
    rfl

/-- C6 witness: `pla_stats([1,2,3], [1,2])` fails with `ValueError`. -/
theorem pla_stats_length_mismatch_witness :
    pla_stats zeroStatFn zeroStatFn zeroStatFn zeroStatFn
        [1, 2, 3] [1, 2] = .error .valueError :=
  pla_stats_length_mismatch zeroStatFn zeroStatFn zeroStatFn zeroStatFn
    [1, 2, 3] [1, 2] (by decide)

/-! ## `instruments/equity/options.py` (flat revision): `Option.__eq__` -/

/-- A value stored in an option instance's `__dict__`. -/
inductive AttrVal where
  | str (s : String)
  | num (q : ℚ)
  | date (d : ℕ)
  | pyNone
  | mcSettings (num_paths time_steps : ℕ) (rng : String)
  deriving Repr, DecidableEq

/-- The instance `__dict__` of a flat-revision `EuropeanCallOption` after
`__init__`: `Option.__init__` stores `_asset_name`, `_strike`,
`_maturity` and `_option_obj`, the `pricing_engine` property setter
stores `_pricing_engine`, and `VanillaOption.__init__` adds
`_mc_settings` — every key is underscore-prefixed, while the public
names exist only as properties, which live on the class and never in
the instance `__dict__`. -/
def europeanCallOptionDict (asset_name : String) (strike : ℚ)
    (maturity : ℕ) (pricing_engine : String) : List (String × AttrVal) :=
  [("_asset_name", .str asset_name),
   ("_strike", .num strike),
   ("_maturity", .date maturity),
   ("_option_obj", .pyNone),
   ("_pricing_engine", .str pricing_engine),
   ("_mc_settings", .mcSettings 1000 1 "pseudorandom")]

/-- `self.__dict__[x]`: raises `KeyError` when the attribute key is
absent from the instance dictionary. -/
def dictGetItem (d : List (String × AttrVal)) (k : String) :
    Except PyException AttrVal :=
  match dictLookup d k with
  | some v => .ok v
  | none => .error .keyError

/-- `Option.__eq__` (flat revision): reads `self.__dict__[x]` and
`other.__dict__[x]` for `x` in `equal_params = ["asset_name", "strike",
"maturity"]`, then compares the two value lists and the two classes. -/
def Option_eq (d1 d2 : List (String × AttrVal)) (cls1 cls2 : String) :
    Except PyException Bool := do
  let option1_values ← (["asset_name", "strike", "maturity"]).mapM
    fun x => dictGetItem d1 x
  let option2_values ← (["asset_name", "strike", "maturity"]).mapM
    fun x => dictGetItem d2 x
  return option1_values == option2_values && cls1 == cls2

/-- C2: comparing any two constructed `EuropeanCallOption` instances —
including two with identical `asset_name`, `strike` and `maturity` —
raises `KeyError` instead of returning a boolean, because `__eq__`
subscripts `__dict__` with `"asset_name"` while `__init__` stored the
attribute as `"_asset_name"`. -/
theorem Option_eq_always_raises (a1 a2 : String) (s1 s2 : ℚ) (m1 m2 : ℕ)
    (e1 e2 : String) :
    Option_eq (europeanCallOptionDict a1 s1 m1 e1)
      (europeanCallOptionDict a2 s2 m2 e2)
      "EuropeanCallOption" "EuropeanCallOption" = .error .keyError := rfl

/-! ## `instruments/equity/options/options.py` (package revision):
engine validation -/

/-- The pricing-engine classes of
`instruments/equity/options/pricing_engine.py`. -/
inductive PricingEngineCls where
  | europeanAnalyticalEngine
  | europeanMCEngine
  | americanMCEngine
  deriving Repr, DecidableEq

/-- The two concrete exercise-style families of the package revision. -/
inductive OptionCls where
  | european
  | american
  deriving Repr, DecidableEq

/-- `valid_pricing_engines` (package revision): the admissible engine
classes declared by each exercise-style subclass. -/
def valid_pricing_engines : OptionCls → List PricingEngineCls
  | .european => [.europeanAnalyticalEngine, .europeanMCEngine]
  | .american => [.americanMCEngine]

/-- `default_pricing_engine` declared by each exercise-style subclass. -/
def default_pricing_engine : OptionCls → PricingEngineCls
  | .european => .europeanAnalyticalEngine
  | .american => .americanMCEngine

/-- The engine-relevant state of a package-revision `Option` instance. -/
structure OptionV2 where
  cls : OptionCls
  asset_name : String
  strike : ℚ
  maturity : ℕ
  pricing_engine : PricingEngineCls

/-- `Option.__init__` (package revision): the last line assigns
`self._pricing_engine = pricing_engine or self.default_pricing_engine()`
directly to the private attribute, bypassing the validating
`pricing_engine` property setter — no engine validation happens at
construction (`None`, the only falsy argument, selects the default). -/
def OptionV2.init (cls : OptionCls) (asset_name : String) (strike : ℚ)
    (maturity : ℕ) (pricing_engine : Option PricingEngineCls) : OptionV2 :=
  { cls, asset_name, strike, maturity,
    pricing_engine := pricing_engine.getD (default_pricing_engine cls) }

/-- `Option.validate_engine`: an engine not in `valid_pricing_engines`
raises `NotImplementedError` (the spec's Configuration error);
otherwise the engine is returned unchanged. -/
def OptionV2.validate_engine (o : OptionV2)
    (pricing_engine : PricingEngineCls) :
    Except PyException PricingEngineCls :=
  if pricing_engine ∉ valid_pricing_engines o.cls then
    .error .notImplementedError
  else .ok pricing_engine

/-- The `pricing_engine` property setter: validate, then store the
result in `_pricing_engine`. -/
def OptionV2.set_pricing_engine (o : OptionV2)
    (pricing_engine : PricingEngineCls) : Except PyException OptionV2 := do
  let e ← o.validate_engine pricing_engine
  return { o with pricing_engine := e }

/-- C3 counterexample: constructing a European option with the invalid
`AmericanMCEngine` succeeds and stores that engine — construction does
not fail with a Configuration error, refuting the claim for the
at-construction case. -/
theorem OptionV2.init_accepts_invalid_engine :
    (OptionV2.init .european "Asset" 120 20251121
        (some .americanMCEngine)).pricing_engine =
      PricingEngineCls.americanMCEngine ∧
    PricingEngineCls.americanMCEngine ∉
      valid_pricing_engines OptionCls.european :=
  ⟨rfl, by decide⟩

/-- C3 (amended): an engine outside `valid_pricing_engines` supplied by
later assignment through the `pricing_engine` setter fails with the
Configuration error (`NotImplementedError`) at assignment time, and a
valid engine is accepted and stored unchanged; at construction, however,
the supplied engine — or the class default when none is given — is
stored without any validation. -/
theorem OptionV2.engine_validation_spec (o : OptionV2)
    (e : PricingEngineCls) :
    (e ∉ valid_pricing_engines o.cls →
      o.set_pricing_engine e = .error .notImplementedError) ∧
    (e ∈ valid_pricing_engines o.cls →
      o.set_pricing_engine e = .ok { o with pricing_engine := e }) ∧
    (∀ (cls : OptionCls) (a : String) (s : ℚ) (m : ℕ)
        (pe : Option PricingEngineCls),
      (OptionV2.init cls a s m pe).pricing_engine =
        pe.getD (default_pricing_engine cls)) := by
  refine ⟨?_, ?_, ?_⟩
  · intro h
    simp only [OptionV2.set_pricing_engine, OptionV2.validate_engine,
      if_pos h]
    rfl
  · intro h
    simp only [OptionV2.set_pricing_engine, OptionV2.validate_engine,
      if_neg (not_not_intro h)]
    rfl
  · intro cls a s m pe
    rfl

/-- A concrete European option used to witness C3's amended claim. -/
def euroOptionSample : OptionV2 := OptionV2.init .european "Asset" 120 1 none

/-- C3 witness: the setter rejects `AmericanMCEngine` on a European
option and accepts `EuropeanMCEngine` unchanged, while construction
stores the default engine unvalidated. -/
theorem OptionV2.engine_validation_spec_witness :
    euroOptionSample.set_pricing_engine .americanMCEngine =
        .error .notImplementedError ∧
    euroOptionSample.set_pricing_engine .europeanMCEngine =
        .ok { euroOptionSample with pricing_engine := .europeanMCEngine } ∧
    (OptionV2.init .american "Asset2" 80 1 none).pricing_engine =
      (none : Option PricingEngineCls).getD
        (default_pricing_engine .american) :=
  ⟨(OptionV2.engine_validation_spec euroOptionSample .americanMCEngine).1
      (by decide),
   (OptionV2.engine_validation_spec euroOptionSample .europeanMCEngine).2.1
      (by decide),
   (OptionV2.engine_validation_spec euroOptionSample
      .europeanMCEngine).2.2 .american "Asset2" 80 1 none⟩
